import Mathlib

/-!
# Verification of the transaction store and derivation pipeline

Shallow embedding of the core of a personal-finance web application:

* the transaction store (`useTransactionStore.ts`-style Zustand store): a list
  of transaction records plus a busy flag, with operations
  `getAllTransactions`, `addTransaction`, `updateTransaction`,
  `deleteTransaction`;
* the dashboard derivation pipeline: summary totals (`totalIncome`,
  `totalExpenses`, `netBalance`) and the filtered-and-sorted display list
  (`processedTransactions`).

Modelling notes:

* `amount` is a JS number used as a decimal amount; it is embedded as `ℚ`.
* `date` is kept as the stored ISO `YYYY-MM-DD` string; the code compares
  dates via `new Date(s).getTime()`, which on such strings is strictly
  monotone in the digit sequence `YYYYMMDD`, so the comparator is embedded
  through the order-isomorphic key `dateVal` (the decimal number formed by
  the digits of the string).
* `addTransaction` generates its id as
  `Math.random().toString(36).substring(2, 9)`: a nondeterministic draw.
  The embedding takes the resulting string as an explicit parameter `gen`
  of the operation (note that the draw `0` yields `"0".substring(2, 9) = ""`
  and that nothing prevents two draws from coinciding).
* each operation sets the busy flag, awaits a simulated delay, then performs
  one functional state update; the embedding maps a published state to the
  next published state (the final `set` of the operation).
* JavaScript `Array.prototype.sort` is stable and orders by the sign of the
  comparator; it is embedded as `List.mergeSort` with the boolean relation
  `comparator ≤ 0`.  The dashboard sorts the fresh array produced by
  `.filter`, so the store's own array is never mutated by the pipeline.
-/

namespace FinanceApp

/-- The `type` enumeration of a transaction: `'income' | 'expense'`. -/
inductive TxType where
  | income
  | expense
deriving DecidableEq, Repr

/-- A transaction record (`Transaction` in `types`): `id`, `title`, `amount`,
`type`, `category`, `date` (ISO `YYYY-MM-DD` string). -/
structure Transaction where
  id : String
  title : String
  amount : ℚ
  type : TxType
  category : String
  date : String
deriving DecidableEq, Repr

/-- A creation payload: `Omit<Transaction, 'id'>`. -/
structure Draft where
  title : String
  amount : ℚ
  type : TxType
  category : String
  date : String
deriving DecidableEq, Repr

/-- The store's state: `transactions: Transaction[]` and `isLoading: boolean`. -/
structure StoreState where
  transactions : List Transaction
  isLoading : Bool
deriving DecidableEq, Repr

/-- The fixed mock data returned by the simulated fetch in
`getAllTransactions`. -/
def mockData : List Transaction :=
  [ { id := "1", title := "Salario", amount := 3000, type := .income,
      category := "Trabajo", date := "2023-10-01" },
    { id := "2", title := "Alquiler", amount := 800, type := .expense,
      category := "Vivienda", date := "2023-10-05" } ]

/-- `getAllTransactions`: replaces `transactions` wholesale with the mock
snapshot and clears `isLoading`. -/
def getAllTransactions (_ : StoreState) : StoreState :=
  { transactions := mockData, isLoading := false }

/-- The record built by `addTransaction`: the draft's fields spread together
with the generated id (`{ ...newTx, id: gen }`). -/
def mkTransaction (gen : String) (d : Draft) : Transaction :=
  { id := gen, title := d.title, amount := d.amount, type := d.type,
    category := d.category, date := d.date }

/-- `addTransaction`: prepends the new record
(`[transaction, ...state.transactions]`) and clears `isLoading`.  `gen` is
the string produced by `Math.random().toString(36).substring(2, 9)`. -/
def addTransaction (gen : String) (d : Draft) (s : StoreState) : StoreState :=
  { transactions := mkTransaction gen d :: s.transactions, isLoading := false }

/-- `updateTransaction`: maps over the list replacing exactly the entries
whose `id` equals the incoming record's id
(`tx.id === updatedTx.id ? updatedTx : tx`). -/
def updateTransaction (r : Transaction) (s : StoreState) : StoreState :=
  { transactions := s.transactions.map fun tx => if tx.id == r.id then r else tx,
    isLoading := false }

/-- `deleteTransaction`: filters out the entries with the given id
(`tx.id !== id`). -/
def deleteTransaction (i : String) (s : StoreState) : StoreState :=
  { transactions := s.transactions.filter fun tx => tx.id != i,
    isLoading := false }

/-- The dashboard's type filter: `"all" | "income" | "expense"`. -/
inductive FilterType where
  | all
  | income
  | expense
deriving DecidableEq, Repr

/-- The dashboard's sort order: `"asc" | "desc"`. -/
inductive SortOrder where
  | asc
  | desc
deriving DecidableEq, Repr

/-- Numeric value of a decimal digit character. -/
def digitVal (c : Char) : Nat := c.toNat - 48

/-- Key embedding `new Date(s).getTime()` for ISO `YYYY-MM-DD` strings: the
decimal number formed by the digits of the string (`YYYYMMDD`), which is
order-isomorphic to the epoch-milliseconds value on such strings.  Only the
comparator's sign matters to the sort, so an order-isomorphic key is a
faithful embedding. -/
def dateVal (s : String) : Nat :=
  (s.toList.filter Char.isDigit).foldl (fun acc c => acc * 10 + digitVal c) 0

/-- The filter predicate of the pipeline:
`filterType === "all" ? true : t.type === filterType`. -/
def matchesFilter (ft : FilterType) (t : Transaction) : Bool :=
  match ft with
  | .all => true
  | .income => t.type == .income
  | .expense => t.type == .expense

/-- The sort comparator of the pipeline:
`sortOrder === "desc" ? dateB - dateA : dateA - dateB`. -/
def jsCompare (so : SortOrder) (a b : Transaction) : Int :=
  match so with
  | .desc => (dateVal b.date : Int) - (dateVal a.date : Int)
  | .asc => (dateVal a.date : Int) - (dateVal b.date : Int)

/-- `a` may precede `b` under a stable comparator sort exactly when the
comparator is non-positive on `(a, b)`. -/
def sortLE (so : SortOrder) (a b : Transaction) : Bool :=
  decide (jsCompare so a b ≤ 0)

/-- `processedTransactions`: `.filter(...)` produces a fresh array, then
`.sort(comparator)` stably sorts that fresh array in place. -/
def processedTransactions (l : List Transaction) (ft : FilterType)
    (so : SortOrder) : List Transaction :=
  (l.filter (matchesFilter ft)).mergeSort (sortLE so)

/-- `totalIncome`: `transactions.filter(t => t.type === "income")
.reduce((acc, t) => acc + t.amount, 0)`. -/
def totalIncome (l : List Transaction) : ℚ :=
  (l.filter fun t => t.type == .income).foldl (fun acc t => acc + t.amount) 0

/-- `totalExpenses`: `transactions.filter(t => t.type === "expense")
.reduce((acc, t) => acc + t.amount, 0)`. -/
def totalExpenses (l : List Transaction) : ℚ :=
  (l.filter fun t => t.type == .expense).foldl (fun acc t => acc + t.amount) 0

/-- `netBalance: income - expenses`. -/
def netBalance (l : List Transaction) : ℚ :=
  totalIncome l - totalExpenses l

/-- What the dashboard derives during a render: the summary triple and the
processed display list. -/
structure RenderOutput where
  totalIncome : ℚ
  totalExpenses : ℚ
  netBalance : ℚ
  displayed : List Transaction
deriving DecidableEq, Repr

/-- One dashboard derivation pass: computes the summary totals from the full
collection and the display list from the filtered copy, and returns the store
state as the pass leaves it.  The `.filter` call allocates a fresh array and
`.sort` mutates only that copy, so the store's `transactions` array is the
one the pass started with. -/
def dashboardRender (s : StoreState) (ft : FilterType) (so : SortOrder) :
    RenderOutput × StoreState :=
  ({ totalIncome := totalIncome s.transactions,
     totalExpenses := totalExpenses s.transactions,
     netBalance := netBalance s.transactions,
     displayed := processedTransactions s.transactions ft so }, s)

/-- A store mutation, as issued by the UI: `create` carries the string the
random id generator produced for this call. -/
inductive StoreOp where
  | create (gen : String) (d : Draft)
  | update (r : Transaction)
  | delete (i : String)
deriving DecidableEq, Repr

/-- Apply one mutation to the store state. -/
def applyOp (s : StoreState) : StoreOp → StoreState
  | .create gen d => addTransaction gen d s
  | .update r => updateTransaction r s
  | .delete i => deleteTransaction i s

/-- The store state after running a sequence of mutations from the empty
collection. -/
def runOps (ops : List StoreOp) : StoreState :=
  ops.foldl applyOp { transactions := [], isLoading := false }

/-- The ids of the live collection, in collection order. -/
def ids (s : StoreState) : List String :=
  s.transactions.map Transaction.id

/-- Whether one operation's generated id (if it is a create) avoids every id
live in the given state. -/
def opFresh (s : StoreState) : StoreOp → Bool
  | .create gen _ => !((ids s).contains gen)
  | .update _ => true
  | .delete _ => true

/-- Whether, along the run of `ops` from `s`, every create's generated id
avoids the ids live at that moment. -/
def freshRun : StoreState → List StoreOp → Bool
  | _, [] => true
  | s, op :: rest => opFresh s op && freshRun (applyOp s op) rest

/-- The ids generated by the create operations of a sequence. -/
def createdIds : List StoreOp → List String
  | [] => []
  | .create gen _ :: rest => gen :: createdIds rest
  | .update _ :: rest => createdIds rest
  | .delete _ :: rest => createdIds rest

/-- C8: `getAllTransactions` replaces the collection wholesale with the fixed
mock pair, leaves `isLoading = false`, and is idempotent: a second call
produces exactly the same state as the first, whatever the prior state. -/
theorem loadAll_spec (s : StoreState) :
    (getAllTransactions s).transactions = mockData ∧
    (getAllTransactions s).isLoading = false ∧
    getAllTransactions (getAllTransactions s) = getAllTransactions s := by
  exact ⟨rfl, rfl, rfl⟩

/-- C9: the derivation pipeline is a read-only consumer of the store: a
dashboard render pass returns the store state unchanged — the very same
record list, element for element, in the same order.  (In the source,
`.filter` allocates a fresh array and `.sort` mutates only that copy.) -/
theorem pipeline_readonly (s : StoreState) (ft : FilterType) (so : SortOrder) :
    (dashboardRender s ft so).2 = s ∧
    (dashboardRender s ft so).2.transactions.length = s.transactions.length ∧
    ∀ i : Nat, (dashboardRender s ft so).2.transactions[i]? = s.transactions[i]? := by
  exact ⟨rfl, rfl, fun _ => rfl⟩

/-- C10: `addTransaction` prepends — the new record sits at index 0 of the
resulting collection and every previously present record follows it, shifted
by one, in its previous relative order. -/
theorem create_prepends (gen : String) (d : Draft) (s : StoreState) :
    (addTransaction gen d s).transactions = mkTransaction gen d :: s.transactions ∧
    (addTransaction gen d s).transactions[0]? = some (mkTransaction gen d) ∧
    ∀ i : Nat, (addTransaction gen d s).transactions[i + 1]? = s.transactions[i]? := by
  refine ⟨rfl, by simp [addTransaction], fun i => ?_⟩
  simp [addTransaction]

/-- C4: `updateTransaction r` keeps the collection's length and positions; at
each position, the record whose id equals `r.id` is replaced by `r`
field-for-field and every record with a different id is left unchanged; and
when no record carries `r.id` the collection is left entirely unchanged. -/
theorem update_spec (r : Transaction) (s : StoreState) :
    (updateTransaction r s).transactions.length = s.transactions.length ∧
    (∀ (i : Nat) (t : Transaction), s.transactions[i]? = some t →
      (updateTransaction r s).transactions[i]? =
        some (if t.id = r.id then r else t)) ∧
    ((∀ t ∈ s.transactions, t.id ≠ r.id) →
      (updateTransaction r s).transactions = s.transactions) := by
  refine ⟨by simp [updateTransaction], fun i t ht => ?_, fun hnone => ?_⟩
  · simp [updateTransaction, List.getElem?_map, ht]
  · simp only [updateTransaction]
    calc s.transactions.map (fun tx => if tx.id == r.id then r else tx)
        = s.transactions.map id := by
          apply List.map_congr_left
          intro t ht
          simp [hnone t ht]
      _ = s.transactions := List.map_id _

/-- C4 witness: replacing the record with id `"1"` inside the mock collection
rewrites position 0 field-for-field, keeps position 1 unchanged, and updating
with an absent id leaves the mock collection unchanged. -/
theorem update_spec_witness :
    (updateTransaction
        { id := "1", title := "Bono", amount := 500, type := .income,
          category := "Trabajo", date := "2023-10-02" }
        { transactions := mockData, isLoading := false }).transactions[0]? =
      some { id := "1", title := "Bono", amount := 500, type := .income,
             category := "Trabajo", date := "2023-10-02" } ∧
    (updateTransaction
        { id := "1", title := "Bono", amount := 500, type := .income,
          category := "Trabajo", date := "2023-10-02" }
        { transactions := mockData, isLoading := false }).transactions[1]? =
      some { id := "2", title := "Alquiler", amount := 800, type := .expense,
             category := "Vivienda", date := "2023-10-05" } ∧
    (updateTransaction
        { id := "9", title := "Bono", amount := 500, type := .income,
          category := "Trabajo", date := "2023-10-02" }
        { transactions := mockData, isLoading := false }).transactions = mockData := by
  refine ⟨?_, ?_, ?_⟩
  · have h := (update_spec
      { id := "1", title := "Bono", amount := 500, type := .income,
        category := "Trabajo", date := "2023-10-02" }
      { transactions := mockData, isLoading := false }).2.1 0
      { id := "1", title := "Salario", amount := 3000, type := .income,
        category := "Trabajo", date := "2023-10-01" } rfl
    simpa using h
  · have h := (update_spec
      { id := "1", title := "Bono", amount := 500, type := .income,
        category := "Trabajo", date := "2023-10-02" }
      { transactions := mockData, isLoading := false }).2.1 1
      { id := "2", title := "Alquiler", amount := 800, type := .expense,
        category := "Vivienda", date := "2023-10-05" } rfl
    simpa using h
  · exact (update_spec
      { id := "9", title := "Bono", amount := 500, type := .income,
        category := "Trabajo", date := "2023-10-02" }
      { transactions := mockData, isLoading := false }).2.2 (by decide)

/-- When no record carries the id, the delete filter keeps everything. -/
theorem filter_ne_id_of_not_mem {l : List Transaction} {i : String}
    (h : ∀ t ∈ l, t.id ≠ i) : l.filter (fun tx => tx.id != i) = l := by
  apply List.filter_eq_self.mpr
  intro t ht
  simpa using h t ht

/-- With unique ids, deleting an id that is present removes exactly one
record. -/
theorem filter_ne_id_length {l : List Transaction} {i : String}
    (hnd : (l.map Transaction.id).Nodup) (hex : ∃ t ∈ l, t.id = i) :
    (l.filter (fun tx => tx.id != i)).length + 1 = l.length := by
  induction l with
  | nil => simp at hex
  | cons a l ih =>
    simp only [List.map_cons, List.nodup_cons] at hnd
    by_cases ha : a.id = i
    · have hrest : ∀ t ∈ l, t.id ≠ i := by
        intro t ht hti
        exact hnd.1 (by
          rw [ha, ← hti]
          exact List.mem_map_of_mem Transaction.id ht)
      have hfalse : (a.id != i) = false := by simp [ha]
      rw [List.filter_cons, hfalse]
      simp only [Bool.false_eq_true, if_false]
      rw [filter_ne_id_of_not_mem hrest]
      simp
    · obtain ⟨t, ht, hti⟩ := hex
      rcases List.mem_cons.mp ht with rfl | ht'
      · exact absurd hti ha
      · have htrue : (a.id != i) = true := by simpa using ha
        rw [List.filter_cons, htrue]
        simp only [if_true, List.length_cons]
        rw [ih hnd.2 ⟨t, ht', hti⟩]

/-- C5: for a collection whose ids are unique (the store's invariant), after
`deleteTransaction i` no record carries id `i`; the length drops by exactly
one when a record with id `i` existed, and the collection is unchanged
otherwise. -/
theorem delete_spec (i : String) (s : StoreState)
    (hnd : (s.transactions.map Transaction.id).Nodup) :
    (∀ t ∈ (deleteTransaction i s).transactions, t.id ≠ i) ∧
    ((∃ t ∈ s.transactions, t.id = i) →
      (deleteTransaction i s).transactions.length + 1 = s.transactions.length) ∧
    ((∀ t ∈ s.transactions, t.id ≠ i) →
      (deleteTransaction i s).transactions = s.transactions) := by
  refine ⟨fun t ht => ?_, fun hex => ?_, fun hnone => ?_⟩
  · have := List.of_mem_filter ht
    simpa using this
  · exact filter_ne_id_length hnd hex
  · exact filter_ne_id_of_not_mem hnone

/-- C5 witness: deleting id `"1"` from the mock collection (unique ids)
leaves no record with that id and shrinks the collection from 2 records to 1;
deleting the absent id `"9"` leaves it unchanged. -/
theorem delete_spec_witness :
    (∀ t ∈ (deleteTransaction "1"
        { transactions := mockData, isLoading := false }).transactions,
      t.id ≠ "1") ∧
    (deleteTransaction "1"
        { transactions := mockData, isLoading := false }).transactions.length + 1 =
      mockData.length ∧
    (deleteTransaction "9"
        { transactions := mockData, isLoading := false }).transactions = mockData := by
  refine ⟨(delete_spec "1" { transactions := mockData, isLoading := false }
      (by decide)).1,
    (delete_spec "1" { transactions := mockData, isLoading := false }
      (by decide)).2.1 (by decide),
    (delete_spec "9" { transactions := mockData, isLoading := false }
      (by decide)).2.2 (by decide)⟩

/-- The store's reduce with `+` over amounts computes the sum of the
amounts. -/
theorem foldl_add_amount (l : List Transaction) (init : ℚ) :
    l.foldl (fun acc t => acc + t.amount) init =
      init + (l.map Transaction.amount).sum := by
  induction l generalizing init with
  | nil => simp
  | cons a l ih =>
    simp only [List.foldl_cons, List.map_cons, List.sum_cons]
    rw [ih]
    ring

/-- C1: `totalIncome` is the sum of `amount` over the income records of the
whole collection and `totalExpenses` the sum over its expense records;
`netBalance` is their difference; the summary triple produced by a dashboard
render pass does not depend on `filterType` or `sortOrder`; and both totals
are non-negative whenever every amount in the collection is non-negative. -/
theorem totals_spec (s : StoreState) (ft ft' : FilterType) (so so' : SortOrder)
    (h : ∀ t ∈ s.transactions, 0 ≤ t.amount) :
    totalIncome s.transactions =
      ((s.transactions.filter fun t => t.type == .income).map
        Transaction.amount).sum ∧
    totalExpenses s.transactions =
      ((s.transactions.filter fun t => t.type == .expense).map
        Transaction.amount).sum ∧
    netBalance s.transactions =
      totalIncome s.transactions - totalExpenses s.transactions ∧
    (dashboardRender s ft so).1.totalIncome =
      (dashboardRender s ft' so').1.totalIncome ∧
    (dashboardRender s ft so).1.totalExpenses =
      (dashboardRender s ft' so').1.totalExpenses ∧
    (dashboardRender s ft so).1.netBalance =
      (dashboardRender s ft' so').1.netBalance ∧
    0 ≤ totalIncome s.transactions ∧ 0 ≤ totalExpenses s.transactions := by
  have hinc : totalIncome s.transactions =
      ((s.transactions.filter fun t => t.type == .income).map
        Transaction.amount).sum := by
    rw [totalIncome, foldl_add_amount, zero_add]
  have hexp : totalExpenses s.transactions =
      ((s.transactions.filter fun t => t.type == .expense).map
        Transaction.amount).sum := by
    rw [totalExpenses, foldl_add_amount, zero_add]
  refine ⟨hinc, hexp, rfl, rfl, rfl, rfl, ?_, ?_⟩
  · rw [hinc]
    apply List.sum_nonneg
    intro x hx
    obtain ⟨t, ht, rfl⟩ := List.mem_map.mp hx
    exact h t (List.mem_of_mem_filter ht)
  · rw [hexp]
    apply List.sum_nonneg
    intro x hx
    obtain ⟨t, ht, rfl⟩ := List.mem_map.mp hx
    exact h t (List.mem_of_mem_filter ht)

/-- C1 witness: on the mock collection (amounts 3000 and 800, both
non-negative) the totals are non-negative, `netBalance` is the difference of
the totals, and the summary triple agrees across two different
filter/sort-order choices. -/
theorem totals_spec_witness :
    netBalance mockData = totalIncome mockData - totalExpenses mockData ∧
    (dashboardRender { transactions := mockData, isLoading := false }
        .income .desc).1.netBalance =
      (dashboardRender { transactions := mockData, isLoading := false }
        .expense .asc).1.netBalance ∧
    0 ≤ totalIncome mockData ∧ 0 ≤ totalExpenses mockData := by
  have h := totals_spec { transactions := mockData, isLoading := false }
    .income .expense .desc .asc (by decide)
  exact ⟨h.2.2.1, h.2.2.2.2.2.1, h.2.2.2.2.2.2.1, h.2.2.2.2.2.2.2⟩

/-- Since `type` is a two-valued enumeration, the income records and the
expense records partition the collection. -/
theorem length_filter_income_expense (l : List Transaction) :
    (l.filter (matchesFilter .income)).length +
      (l.filter (matchesFilter .expense)).length = l.length := by
  induction l with
  | nil => rfl
  | cons t l ih =>
    rcases htype : t.type with _ | _ <;>
      simp [List.filter_cons, matchesFilter, htype] <;> omega

/-- The `all` filter keeps every record. -/
theorem filter_all_eq_self (l : List Transaction) :
    l.filter (matchesFilter .all) = l :=
  List.filter_eq_self.mpr fun _ _ => rfl

/-- C7: with `filterType = income` the pipeline's output contains only income
records (resp. `expense`/expense); with `filterType = all` the output is a
permutation of the whole collection (every record passes); and for a fixed
collection the output sizes under `income` and `expense` add up to the size
under `all`. -/
theorem filter_spec (s : StoreState) (so : SortOrder) :
    (∀ t ∈ processedTransactions s.transactions .income so,
      t.type = .income) ∧
    (∀ t ∈ processedTransactions s.transactions .expense so,
      t.type = .expense) ∧
    List.Perm (processedTransactions s.transactions .all so) s.transactions ∧
    (processedTransactions s.transactions .income so).length +
        (processedTransactions s.transactions .expense so).length =
      (processedTransactions s.transactions .all so).length := by
  refine ⟨fun t ht => ?_, fun t ht => ?_, ?_, ?_⟩
  · have := List.of_mem_filter (List.mem_mergeSort.mp ht)
    simpa [matchesFilter] using this
  · have := List.of_mem_filter (List.mem_mergeSort.mp ht)
    simpa [matchesFilter] using this
  · exact (List.mergeSort_perm
        (s.transactions.filter (matchesFilter .all)) (sortLE so)).trans
      (List.Perm.of_eq (filter_all_eq_self s.transactions))
  · simp only [processedTransactions, List.length_mergeSort,
      filter_all_eq_self]
    exact length_filter_income_expense s.transactions

/-- C7 witness: on the mock collection the income-filtered output contains
only income records (checked on the record with id `"1"`), and the output
sizes satisfy 1 + 1 = 2. -/
theorem filter_spec_witness :
    ({ id := "1", title := "Salario", amount := 3000, type := .income,
       category := "Trabajo", date := "2023-10-01" } : Transaction).type =
      TxType.income ∧
    (processedTransactions mockData .income .desc).length +
        (processedTransactions mockData .expense .desc).length =
      (processedTransactions mockData .all .desc).length := by
  refine ⟨?_, (filter_spec { transactions := mockData, isLoading := false }
    .desc).2.2.2⟩
  exact (filter_spec { transactions := mockData, isLoading := false } .desc).1
    { id := "1", title := "Salario", amount := 3000, type := .income,
      category := "Trabajo", date := "2023-10-01" }
    (List.mem_mergeSort.mpr (by decide))

/-- The embedded comparator relation is transitive. -/
theorem sortLE_trans (so : SortOrder) :
    ∀ a b c : Transaction, sortLE so a b → sortLE so b c → sortLE so a c := by
  intro a b c hab hbc
  cases so <;> simp only [sortLE, jsCompare, decide_eq_true_eq] at * <;> omega

/-- The embedded comparator relation is total. -/
theorem sortLE_total (so : SortOrder) :
    ∀ a b : Transaction, sortLE so a b || sortLE so b a := by
  intro a b
  cases so <;> simp only [sortLE, jsCompare, Bool.or_eq_true,
    decide_eq_true_eq] <;> omega

/-- C2: in the pipeline's output, for every collection and filter, with
`sortOrder = desc` every adjacent pair `(a, b)` satisfies
`date(a) ≥ date(b)` and with `asc` the reverse; and any two records with
equal dates that occur in order in the filtered input occur in the same
order in the output, for both sort orders (stability). -/
theorem sorting_spec (s : StoreState) (ft : FilterType) :
    (processedTransactions s.transactions ft .desc).Chain'
      (fun x y => dateVal y.date ≤ dateVal x.date) ∧
    (processedTransactions s.transactions ft .asc).Chain'
      (fun x y => dateVal x.date ≤ dateVal y.date) ∧
    ∀ a b : Transaction, dateVal a.date = dateVal b.date →
      List.Sublist [a, b] (s.transactions.filter (matchesFilter ft)) →
      List.Sublist [a, b] (processedTransactions s.transactions ft .desc) ∧
      List.Sublist [a, b] (processedTransactions s.transactions ft .asc) := by
  refine ⟨?_, ?_, fun a b hdate hsub => ⟨?_, ?_⟩⟩
  · apply List.Pairwise.chain'
    apply List.Pairwise.imp ?_
      (List.sorted_mergeSort (sortLE_trans .desc) (sortLE_total .desc)
        (s.transactions.filter (matchesFilter ft)))
    intro x y hxy
    simp only [sortLE, jsCompare, decide_eq_true_eq] at hxy
    omega
  · apply List.Pairwise.chain'
    apply List.Pairwise.imp ?_
      (List.sorted_mergeSort (sortLE_trans .asc) (sortLE_total .asc)
        (s.transactions.filter (matchesFilter ft)))
    intro x y hxy
    simp only [sortLE, jsCompare, decide_eq_true_eq] at hxy
    omega
  · exact List.pair_sublist_mergeSort (sortLE_trans .desc) (sortLE_total .desc)
      (by simp only [sortLE, jsCompare, decide_eq_true_eq]; omega) hsub
  · exact List.pair_sublist_mergeSort (sortLE_trans .asc) (sortLE_total .asc)
      (by simp only [sortLE, jsCompare, decide_eq_true_eq]; omega) hsub

/-- C2 witness: two records sharing the date `2023-10-01` inside a
three-record collection keep their relative order in the sorted output for
both sort orders, and the `desc` output is adjacently ordered by
non-increasing dates. -/
theorem sorting_spec_witness :
    (processedTransactions
        [ { id := "a", title := "A", amount := 1, type := .income,
            category := "C", date := "2023-10-01" },
          { id := "b", title := "B", amount := 2, type := .expense,
            category := "C", date := "2023-10-01" },
          { id := "c", title := "C", amount := 3, type := .income,
            category := "C", date := "2023-09-15" } ] .all .desc).Chain'
      (fun x y => dateVal y.date ≤ dateVal x.date) ∧
    List.Sublist
      [ { id := "a", title := "A", amount := 1, type := .income,
          category := "C", date := "2023-10-01" },
        { id := "b", title := "B", amount := 2, type := .expense,
          category := "C", date := "2023-10-01" } ]
      (processedTransactions
        [ { id := "a", title := "A", amount := 1, type := .income,
            category := "C", date := "2023-10-01" },
          { id := "b", title := "B", amount := 2, type := .expense,
            category := "C", date := "2023-10-01" },
          { id := "c", title := "C", amount := 3, type := .income,
            category := "C", date := "2023-09-15" } ] .all .asc) := by
  have h := sorting_spec
    { transactions :=
        [ { id := "a", title := "A", amount := 1, type := .income,
            category := "C", date := "2023-10-01" },
          { id := "b", title := "B", amount := 2, type := .expense,
            category := "C", date := "2023-10-01" },
          { id := "c", title := "C", amount := 3, type := .income,
            category := "C", date := "2023-09-15" } ],
      isLoading := false } .all
  exact ⟨h.1, (h.2.2
    { id := "a", title := "A", amount := 1, type := .income,
      category := "C", date := "2023-10-01" }
    { id := "b", title := "B", amount := 2, type := .expense,
      category := "C", date := "2023-10-01" } rfl (by decide)).2⟩

/-- The draft of the spec's creation scenario
(`{title:"Coffee", amount:4.5, type:expense, category:"Food",
date:"2024-01-01"}`). -/
def coffeeDraft : Draft :=
  { title := "Coffee", amount := 4.5, type := .expense, category := "Food",
    date := "2024-01-01" }

/-- `updateTransaction` never changes the id sequence of the collection: each
entry either keeps its id or is replaced by a record carrying that same id. -/
theorem ids_update (r : Transaction) (s : StoreState) :
    ids (updateTransaction r s) = ids s := by
  simp only [ids, updateTransaction, List.map_map]
  apply List.map_congr_left
  intro t _
  simp only [Function.comp_apply]
  by_cases h : t.id = r.id
  · simp [h]
  · simp [h]

/-- `deleteTransaction` leaves an id sequence that is a sublist of the
previous one. -/
theorem ids_delete (i : String) (s : StoreState) :
    List.Sublist (ids (deleteTransaction i s)) (ids s) := by
  simp only [ids, deleteTransaction]
  exact List.Sublist.map Transaction.id (List.filter_sublist s.transactions)

/-- Running a sequence of operations whose creates all draw fresh ids keeps
the id sequence duplicate-free, and every live id is either inherited from
the start state or generated by one of the creates. -/
theorem fresh_run_invariant (ops : List StoreOp) (s : StoreState)
    (hfresh : freshRun s ops = true) (hnd : (ids s).Nodup) :
    (ids (ops.foldl applyOp s)).Nodup ∧
    ∀ i ∈ ids (ops.foldl applyOp s), i ∈ ids s ∨ i ∈ createdIds ops := by
  induction ops generalizing s with
  | nil => exact ⟨hnd, fun i hi => .inl hi⟩
  | cons op rest ih =>
    rw [freshRun, Bool.and_eq_true] at hfresh
    obtain ⟨hop, hrest⟩ := hfresh
    rw [List.foldl_cons]
    cases op with
    | create gen d =>
      have hids : ids (applyOp s (.create gen d)) = gen :: ids s := by
        simp [ids, applyOp, addTransaction, mkTransaction]
      have hnotmem : gen ∉ ids s := by simpa [opFresh] using hop
      have hnd' : (ids (applyOp s (.create gen d))).Nodup := by
        rw [hids]
        exact List.nodup_cons.mpr ⟨hnotmem, hnd⟩
      obtain ⟨h1, h2⟩ := ih (applyOp s (.create gen d)) hrest hnd'
      refine ⟨h1, fun i hi => ?_⟩
      rcases h2 i hi with h | h
      · rw [hids] at h
        rcases List.mem_cons.mp h with rfl | h'
        · exact .inr (by simp [createdIds])
        · exact .inl h'
      · exact .inr (by simp [createdIds, h])
    | update r =>
      have hids : ids (applyOp s (.update r)) = ids s := ids_update r s
      obtain ⟨h1, h2⟩ := ih (applyOp s (.update r)) hrest (hids ▸ hnd)
      refine ⟨h1, fun i hi => ?_⟩
      rcases h2 i hi with h | h
      · exact .inl (hids ▸ h)
      · exact .inr (by simpa [createdIds] using h)
    | delete j =>
      have hsub : List.Sublist (ids (applyOp s (.delete j))) (ids s) :=
        ids_delete j s
      obtain ⟨h1, h2⟩ := ih (applyOp s (.delete j)) hrest (hsub.nodup hnd)
      refine ⟨h1, fun i hi => ?_⟩
      rcases h2 i hi with h | h
      · exact .inl (hsub.subset h)
      · exact .inr (by simpa [createdIds] using h)

/-- C3 counterexample: the id generator is a random draw with no collision
check, so a sequence of two creates whose draws coincide (both `"x"`) leaves
the collection with a duplicated id, refuting the claim for arbitrary
create/update/delete sequences. -/
theorem id_uniqueness_cex :
    ¬ (ids (runOps [StoreOp.create "x" coffeeDraft,
        StoreOp.create "x" coffeeDraft])).Nodup := by
  decide

/-- C3 (amended): starting from the empty collection, for every sequence of
create/update/delete operations in which each create's generated id is
distinct from every id live at that moment, the id set has no duplicates and
every id present was produced by a prior create. -/
theorem id_uniqueness_of_fresh (ops : List StoreOp)
    (hfresh : freshRun { transactions := [], isLoading := false } ops = true) :
    (ids (runOps ops)).Nodup ∧
    ∀ i ∈ ids (runOps ops), i ∈ createdIds ops := by
  obtain ⟨h1, h2⟩ := fresh_run_invariant ops
    { transactions := [], isLoading := false } hfresh (by simp [ids])
  refine ⟨h1, fun i hi => ?_⟩
  rcases h2 i hi with h | h
  · simp [ids] at h
  · exact h

/-- C3 witness: a create, an update, a delete and a second create with a
fresh id leave a duplicate-free collection whose ids all come from creates. -/
theorem id_uniqueness_of_fresh_witness :
    (ids (runOps [StoreOp.create "x" coffeeDraft,
        StoreOp.update (mkTransaction "x" coffeeDraft),
        StoreOp.create "z" coffeeDraft,
        StoreOp.delete "x"])).Nodup ∧
    ∀ i ∈ ids (runOps [StoreOp.create "x" coffeeDraft,
        StoreOp.update (mkTransaction "x" coffeeDraft),
        StoreOp.create "z" coffeeDraft,
        StoreOp.delete "x"]),
      i ∈ createdIds [StoreOp.create "x" coffeeDraft,
        StoreOp.update (mkTransaction "x" coffeeDraft),
        StoreOp.create "z" coffeeDraft,
        StoreOp.delete "x"] :=
  id_uniqueness_of_fresh
    [StoreOp.create "x" coffeeDraft,
     StoreOp.update (mkTransaction "x" coffeeDraft),
     StoreOp.create "z" coffeeDraft,
     StoreOp.delete "x"] (by decide)

/-- C6 counterexample: when `Math.random()` draws `0`, the generated id is
`(0).toString(36).substring(2, 9) = ""`, so creating the spec's coffee draft
on the empty collection yields a single record whose id is the empty string,
refuting the claimed non-emptiness. -/
theorem create_id_cex :
    (addTransaction "" coffeeDraft
        { transactions := [], isLoading := false }).transactions.length = 1 ∧
    ¬ (∀ t ∈ (addTransaction "" coffeeDraft
        { transactions := [], isLoading := false }).transactions,
        t.id ≠ "") := by
  refine ⟨rfl, fun h => ?_⟩
  exact h (mkTransaction "" coffeeDraft) (by simp [addTransaction]) rfl

/-- C6 (amended): for every collection and every draw, `addTransaction`
increases the collection length by exactly one and the new record is the
draft carrying exactly the generator's output string as its id; whenever
that output is non-empty and distinct from every id already present — which
the code does not itself enforce — the new record's id is non-empty and
distinct from all prior ids. -/
theorem create_id_of_fresh (gen : String) (d : Draft) (s : StoreState) :
    (addTransaction gen d s).transactions.length =
      s.transactions.length + 1 ∧
    (addTransaction gen d s).transactions =
      mkTransaction gen d :: s.transactions ∧
    (mkTransaction gen d).id = gen ∧
    (gen ≠ "" → gen ∉ s.transactions.map Transaction.id →
      (mkTransaction gen d).id ≠ "" ∧
      (mkTransaction gen d).id ∉ s.transactions.map Transaction.id) := by
  exact ⟨by simp [addTransaction], rfl, rfl, fun h1 h2 => ⟨h1, h2⟩⟩

/-- C6 witness: creating the coffee draft with the non-empty fresh draw
`"k3j9q2x"` on the empty collection yields a one-record collection headed by
the draft's record carrying that non-empty, non-colliding id. -/
theorem create_id_of_fresh_witness :
    (addTransaction "k3j9q2x" coffeeDraft
        { transactions := [], isLoading := false }).transactions.length =
      0 + 1 ∧
    (addTransaction "k3j9q2x" coffeeDraft
        { transactions := [], isLoading := false }).transactions =
      mkTransaction "k3j9q2x" coffeeDraft :: [] ∧
    (mkTransaction "k3j9q2x" coffeeDraft).id ≠ "" ∧
    (mkTransaction "k3j9q2x" coffeeDraft).id ∉
      ([] : List Transaction).map Transaction.id := by
  have h := create_id_of_fresh "k3j9q2x" coffeeDraft
    { transactions := [], isLoading := false }
  exact ⟨h.1, h.2.1, (h.2.2.2 (by decide) (by simp)).1,
    (h.2.2.2 (by decide) (by simp)).2⟩

end FinanceApp
